import Mathlib

/-!
Verification of the orderbook recorder: a shallow embedding of the
book-replication and buffered-persistence pipeline of
`binance_spot_orderbook.py` and `orderbook_recorder.py`.

Prices and sizes are modelled as rationals (the Python floats carry exact
decimal values in all scenarios considered here).  Each side of the book
(`self.orderbook['bids']`, `self.orderbook['asks']`) is a Python dict from
price to size; we embed it as an association list with dict update
semantics.
-/

namespace BinanceSpot

/-- One side of the local orderbook: association list from price to size,
embedding the dict `self.orderbook['bids']` / `self.orderbook['asks']`. -/
abbrev Side := List (ℚ × ℚ)

/-- Dict lookup: the value stored at price `p`, if any. -/
def lookupLevel : Side → ℚ → Option ℚ
  | [], _ => none
  | (p, q) :: rest, p' => if p = p' then some q else lookupLevel rest p'

/-- Dict membership test at price `p`. -/
def hasLevel (s : Side) (p : ℚ) : Bool :=
  (lookupLevel s p).isSome

/-- One delta applied to one side, embedding the loop body of
`update_local_orderbook`:
`if quantity == 0: book.pop(price, None) else: book[price] = quantity`.
A zero size deletes the key; otherwise the key's value is overwritten in
place (if present) or the pair is appended (if absent), exactly as a
Python dict assignment behaves. -/
def applyLevel (s : Side) (p q : ℚ) : Side :=
  if q = 0 then
    s.filter (fun kv => kv.1 ≠ p)
  else if hasLevel s p then
    s.map (fun kv => if kv.1 = p then (p, q) else kv)
  else
    s ++ [(p, q)]

/-- Fold a list of `(price, size)` deltas into a side, in listed order. -/
def applyDeltas (s : Side) (ds : List (ℚ × ℚ)) : Side :=
  ds.foldl (fun acc d => applyLevel acc d.1 d.2) s

/-- A parsed `depthUpdate` message: bid deltas `b`, ask deltas `a`, and the
optional final update id `u`. -/
structure DepthMsg where
  b : List (ℚ × ℚ)
  a : List (ℚ × ℚ)
  u : Option ℕ
deriving DecidableEq

/-- The local book replica `self.orderbook`. -/
structure Orderbook where
  bids : Side
  asks : Side
deriving DecidableEq

/-- The book at adapter start-up: `{"bids": {}, "asks": {}}`. -/
def emptyOrderbook : Orderbook := { bids := [], asks := [] }

/-- `update_local_orderbook`: apply all bid deltas to the bid side and all
ask deltas to the ask side, in the listed order. -/
def update_local_orderbook (ob : Orderbook) (m : DepthMsg) : Orderbook :=
  { bids := applyDeltas ob.bids m.b
    asks := applyDeltas ob.asks m.a }

/-- A sequence of depth messages folded into the book. -/
def applyMsgs (msgs : List DepthMsg) (ob : Orderbook) : Orderbook :=
  msgs.foldl update_local_orderbook ob

/-- Ascending lexicographic order on `(price, size)` pairs: the comparison
Python's `sorted` uses on the dict's `.items()` tuples. -/
def pairLe (x y : ℚ × ℚ) : Bool :=
  decide (x.1 < y.1 ∨ (x.1 = y.1 ∧ x.2 ≤ y.2))

/-- Insert a pair into an already `pairLe`-sorted list, keeping it sorted. -/
def insertPair (x : ℚ × ℚ) : Side → Side
  | [] => [x]
  | y :: ys => if pairLe x y then x :: y :: ys else y :: insertPair x ys

/-- `sorted(side.items())`: insertion sort by ascending lexicographic order.
Prices within one side are unique, so this agrees with any correct sort. -/
def sortAsc (s : Side) : Side :=
  s.foldr insertPair []

/-- `sorted(side.items(), reverse=True)`: descending order.  With unique
prices this equals the reverse of the ascending sort. -/
def sortDesc (s : Side) : Side :=
  (sortAsc s).reverse

/-- `sorted(self.orderbook['bids'].items(), reverse=True)[:depth_levels]`. -/
def topBids (depth_levels : ℕ) (ob : Orderbook) : Side :=
  (sortDesc ob.bids).take depth_levels

/-- `sorted(self.orderbook['asks'].items())[:depth_levels]`. -/
def topAsks (depth_levels : ℕ) (ob : Orderbook) : Side :=
  (sortAsc ob.asks).take depth_levels

/-- The materialized snapshot returned by `process_orderbook_data`.
`timestamp`, `exchange`, `symbol` and `event_type` are constant strings or
wall-clock readings and are omitted; all value-carrying fields are kept. -/
structure Snapshot where
  sequence_id : ℕ
  bids : Side
  asks : Side
  best_bid : Option ℚ
  best_ask : Option ℚ
  best_bid_size : Option ℚ
  best_ask_size : Option ℚ
  spread : Option ℚ
  spread_percent : Option ℚ
  mid_price : Option ℚ
  total_bid_volume : ℚ
  total_ask_volume : ℚ
deriving DecidableEq

/-- Python truthiness guard `if (x and y)` on two optional floats, as used
at `spread = (best_ask - best_bid) if (best_bid and best_ask) else None`:
the result is produced only when both values are present AND nonzero
(`None` and `0.0` are both falsy in Python). -/
def ifBothTruthy (a b : Option ℚ) (f : ℚ → ℚ → ℚ) : Option ℚ :=
  match a, b with
  | some x, some y => if x ≠ 0 ∧ y ≠ 0 then some (f x y) else none
  | _, _ => none

/-- `process_orderbook_data`: derive the snapshot from the current book.
`sequence_id` is read from the adapter state (`self.sequence_id`). -/
def process_orderbook_data (depth_levels : ℕ) (sequence_id : ℕ)
    (ob : Orderbook) : Snapshot :=
  let sorted_bids := topBids depth_levels ob
  let sorted_asks := topAsks depth_levels ob
  let best_bid := sorted_bids.head?.map Prod.fst
  let best_ask := sorted_asks.head?.map Prod.fst
  let best_bid_size := sorted_bids.head?.map Prod.snd
  let best_ask_size := sorted_asks.head?.map Prod.snd
  let spread := ifBothTruthy best_bid best_ask (fun bb ba => ba - bb)
  -- `spread_percent = (spread / best_ask * 100) if spread else None`:
  -- a spread of exactly 0 is falsy, so it yields None.  Whenever `spread`
  -- is present, `best_ask` is present by construction.
  let spread_percent : Option ℚ :=
    match spread, best_ask with
    | some s, some ba => if s ≠ 0 then some (s / ba * 100) else none
    | _, _ => none
  let mid_price := ifBothTruthy best_bid best_ask (fun bb ba => (bb + ba) / 2)
  { sequence_id := sequence_id
    bids := sorted_bids
    asks := sorted_asks
    best_bid := best_bid
    best_ask := best_ask
    best_bid_size := best_bid_size
    best_ask_size := best_ask_size
    spread := spread
    spread_percent := spread_percent
    mid_price := mid_price
    total_bid_volume := (sorted_bids.map Prod.snd).sum
    total_ask_volume := (sorted_asks.map Prod.snd).sum }

/-- The adapter state mutated by `handle_depth_update`: the book replica
and the last seen update id (`self.sequence_id`, initialised to 0).  The
message counter is kept as well. -/
structure AdapterState where
  orderbook : Orderbook
  sequence_id : ℕ
  msg_count : ℕ
deriving DecidableEq

/-- Adapter state right after `__init__`: empty book, `sequence_id = 0`. -/
def initState : AdapterState :=
  { orderbook := emptyOrderbook, sequence_id := 0, msg_count := 0 }

/-- `handle_depth_update` on one parsed message: update the book, bump the
counter, set `self.sequence_id = data.get('u', self.sequence_id)`, then
derive the snapshot from the new book and the stored sequence id.  Returns
the new state and the emitted snapshot. -/
def handle_depth_update (depth_levels : ℕ) (st : AdapterState)
    (m : DepthMsg) : AdapterState × Snapshot :=
  let ob := update_local_orderbook st.orderbook m
  let seq := m.u.getD st.sequence_id
  let snap := process_orderbook_data depth_levels seq ob
  ({ orderbook := ob, sequence_id := seq, msg_count := st.msg_count + 1 }, snap)

/-- Run the adapter over a list of messages, collecting the snapshots
emitted for each message in order. -/
def processMsgs (depth_levels : ℕ) (st : AdapterState) :
    List DepthMsg → AdapterState × List Snapshot
  | [] => (st, [])
  | m :: ms =>
      let r := handle_depth_update depth_levels st m
      let rest := processMsgs depth_levels r.1 ms
      (rest.1, r.2 :: rest.2)

/-- Buffering and persistence state of one adapter, polymorphic in the
record type buffered (the Python buffer holds snapshot dicts; the flush
logic never inspects them).  `fileContents` is the content of the parquet
file for the current `(symbol, hour)` key — `none` when the file does not
exist.  `buffer_size` and `flush_interval` are the configured thresholds
(`self.buffer_size`, `self.flush_interval`). -/
structure FlushState (α : Type) where
  buffer : List α
  fileContents : Option (List α)
  last_flush_time : ℚ
  buffer_size : ℕ
  flush_interval : ℚ
deriving DecidableEq

/-- `flush_buffer` at wall-clock time `now`.  An empty buffer returns at
once, touching nothing.  Otherwise the prior file contents (if the file
exists) are read and the batch is appended after them, and the combined
list is written back.  `writeFails` models the write raising inside the
`try` block: the `except` handler only logs, so the buffer and the flush
clock are left untouched (a failed write's file content is likewise left
as it was).  On success the buffer is cleared and the clock reset. -/
def flush_buffer {α : Type} (st : FlushState α) (now : ℚ)
    (writeFails : Bool) : FlushState α :=
  if st.buffer.isEmpty then st
  else
    let combined :=
      match st.fileContents with
      | some existing => existing ++ st.buffer
      | none => st.buffer
    if writeFails then st
    else { st with buffer := [], fileContents := some combined,
                   last_flush_time := now }

/-- `check_flush_buffer`: flush exactly when the buffer has reached the
configured batch size or the elapsed time since the last flush strictly
exceeds the configured interval
(`len(buffer) >= buffer_size or now - last_flush_time > flush_interval`). -/
def check_flush_buffer {α : Type} (st : FlushState α) (now : ℚ)
    (writeFails : Bool) : FlushState α :=
  if st.buffer_size ≤ st.buffer.length ∨
      st.flush_interval < now - st.last_flush_time then
    flush_buffer st now writeFails
  else st

/-- The recording-related part of one collector, as seen by the recorder
supervisor: the recording flag and the flush state. -/
structure SpotCollector (α : Type) where
  enable_recording : Bool
  flushState : FlushState α
deriving DecidableEq

/-- `BinanceSpotOrderbook.stop`: flush the remaining data exactly when
recording is enabled and the buffer is non-empty
(`if self.enable_recording and self.data_buffer: await self.flush_buffer()`).
The second component counts the `flush_buffer` invocations performed. -/
def collector_stop {α : Type} (c : SpotCollector α) (now : ℚ)
    (writeFails : Bool) : SpotCollector α × ℕ :=
  if c.enable_recording ∧ ¬ c.flushState.buffer.isEmpty then
    ({ c with flushState := flush_buffer c.flushState now writeFails }, 1)
  else (c, 0)

/-- The recorder supervisor's state relevant to `OrderbookRecorder.stop`,
with one collector. -/
structure RecorderState (α : Type) where
  is_running : Bool
  collector : SpotCollector α
deriving DecidableEq

/-- `OrderbookRecorder.stop`: return immediately when not running;
otherwise clear `is_running`, stop the collector (flushing its remaining
buffer), and emit the final statistics report.  Task cancellation and the
report text are not modelled; the second and third components count the
`flush_buffer` invocations and final reports of this call. -/
def recorder_stop {α : Type} (st : RecorderState α) (now : ℚ)
    (writeFails : Bool) : RecorderState α × ℕ × ℕ :=
  if st.is_running then
    let r := collector_stop st.collector now writeFails
    ({ is_running := false, collector := r.1 }, r.2, 1)
  else (st, 0, 0)

/-- The reconnection loop of `connect`, abstracted over the outcomes of
its successive iterations.  Each list element tells whether that iteration
established the WebSocket connection (`true`) before eventually losing it,
or failed outright (`false`); either way the iteration ends in the
`except` handler, which sleeps the current `reconnect_delay` and then
doubles it, capped at 60 (`min(reconnect_delay * 2, 60)`).  A successful
connection first resets the delay to 1.  The result is the list of sleep
durations performed, given the delay in force at the first iteration. -/
def connectRun (delay : ℕ) : List Bool → List ℕ
  | [] => []
  | ok :: rest =>
      let d := if ok then 1 else delay
      d :: connectRun (min (d * 2) 60) rest

/-- `connect` enters its loop with `reconnect_delay = 1`. -/
def connect (events : List Bool) : List ℕ :=
  connectRun 1 events

/-- All sleeps in a backoff trace are at most 60 time units. -/
def allCapped (l : List ℕ) : Bool :=
  l.all (fun x => decide (x ≤ 60))

/-- The size stored for price `p` after the deltas `ds` are folded in is
decided by the last delta for `p` in `ds`, if any: `lastDeltaFor p ds` is
that delta's size. -/
def lastDeltaFor (p : ℚ) : List (ℚ × ℚ) → Option ℚ
  | [] => none
  | d :: ds =>
      match lastDeltaFor p ds with
      | some q => some q
      | none => if d.1 = p then some d.2 else none

/-- The update id carried by the most recent message in `msgs` that has
one, or 0 (the initial `self.sequence_id`) when none has. -/
def lastSeq (msgs : List DepthMsg) : ℕ :=
  (msgs.reverse.findSome? DepthMsg.u).getD 0

/-! ### Dict-update lemmas for `applyLevel` -/

lemma lookupLevel_cons (a b p : ℚ) (rest : Side) :
    lookupLevel ((a, b) :: rest) p =
      if a = p then some b else lookupLevel rest p := rfl

lemma lookupLevel_filterNe (s : Side) (p' p : ℚ) :
    lookupLevel (s.filter (fun kv => !decide (kv.1 = p'))) p =
      if p' = p then none else lookupLevel s p := by
  induction s with
  | nil => simp [lookupLevel]
  | cons kv rest ih =>
      obtain ⟨a, b⟩ := kv
      by_cases hap : a = p'
      · subst hap
        by_cases hpp : a = p
        · subst hpp
          simpa [List.filter_cons] using ih
        · simp only [List.filter_cons, decide_eq_true_eq]
          simpa [hpp, lookupLevel_cons] using ih
      · by_cases hp : a = p
        · subst hp
          have hne : p' ≠ a := fun h => hap h.symm
          simp [List.filter_cons, hap, lookupLevel_cons, hne]
        · simp [List.filter_cons, hap, lookupLevel_cons, hp, ih]

lemma lookupLevel_mapReplace (s : Side) (p' q p : ℚ) :
    lookupLevel (s.map (fun kv => if kv.1 = p' then (p', q) else kv)) p =
      if p' = p then (lookupLevel s p').map (fun _ => q)
      else lookupLevel s p := by
  induction s with
  | nil => simp [lookupLevel]
  | cons kv rest ih =>
      obtain ⟨a, b⟩ := kv
      by_cases hap : a = p'
      · subst hap
        by_cases hpp : a = p
        · simp [lookupLevel_cons, hpp, ih]
        · simp [lookupLevel_cons, hpp, ih]
      · by_cases hp : a = p
        · subst hp
          have : p' ≠ a := fun h => hap h.symm
          simp [lookupLevel_cons, hap, this]
        · simp [lookupLevel_cons, hap, hp, ih]

lemma lookupLevel_append (s t : Side) (p : ℚ) :
    lookupLevel (s ++ t) p =
      match lookupLevel s p with
      | some q => some q
      | none => lookupLevel t p := by
  induction s with
  | nil => simp [lookupLevel]
  | cons kv rest ih =>
      obtain ⟨a, b⟩ := kv
      by_cases hp : a = p
      · simp [lookupLevel_cons, hp]
      · simp [lookupLevel_cons, hp, ih]

/-- The per-delta dict semantics: a zero size removes the key, a nonzero
size stores exactly that size under the key, and other keys are
untouched. -/
lemma lookupLevel_applyLevel (s : Side) (p' q p : ℚ) :
    lookupLevel (applyLevel s p' q) p =
      if p' = p then (if q = 0 then none else some q)
      else lookupLevel s p := by
  unfold applyLevel
  by_cases hq : q = 0
  · simpa [hq] using lookupLevel_filterNe s p' p
  · by_cases hs : hasLevel s p'
    · have hsome : (lookupLevel s p').isSome := hs
      obtain ⟨b, hb⟩ := Option.isSome_iff_exists.1 hsome
      simp [hq, hs, lookupLevel_mapReplace, hb]
    · have hnone : lookupLevel s p' = none := by
        by_contra hne
        exact hs (Option.isSome_iff_ne_none.2 hne)
      rw [if_neg hq, if_neg hs, lookupLevel_append]
      by_cases hpp : p' = p
      · subst hpp
        simp [hnone, lookupLevel_cons, hq]
      · have hps : p' ≠ p := hpp
        rcases hlk : lookupLevel s p with _ | v <;>
          simp [hlk, lookupLevel_cons, hps, hpp, lookupLevel]

/-- Folding a delta list: the stored size at `p` is decided by the last
delta for `p` in the list (last-write-wins), and is absent iff that delta
has size zero; prices never mentioned keep their prior value. -/
lemma lookupLevel_applyDeltas (ds : List (ℚ × ℚ)) (s : Side) (p : ℚ) :
    lookupLevel (applyDeltas s ds) p =
      match lastDeltaFor p ds with
      | some q => if q = 0 then none else some q
      | none => lookupLevel s p := by
  induction ds generalizing s with
  | nil => rfl
  | cons d ds ih =>
      have hstep : applyDeltas s (d :: ds) =
          applyDeltas (applyLevel s d.1 d.2) ds := rfl
      rw [hstep, ih]
      rcases h : lastDeltaFor p ds with _ | q
      · by_cases hd : d.1 = p <;>
          simp [lastDeltaFor, h, lookupLevel_applyLevel, hd]
      · simp [lastDeltaFor, h]

lemma applyDeltas_append (s : Side) (l₁ l₂ : List (ℚ × ℚ)) :
    applyDeltas s (l₁ ++ l₂) = applyDeltas (applyDeltas s l₁) l₂ :=
  List.foldl_append ..

lemma applyMsgs_bids (msgs : List DepthMsg) (ob : Orderbook) :
    (applyMsgs msgs ob).bids =
      applyDeltas ob.bids (msgs.map DepthMsg.b).flatten := by
  induction msgs generalizing ob with
  | nil => rfl
  | cons m msgs ih =>
      have : applyMsgs (m :: msgs) ob = applyMsgs msgs (update_local_orderbook ob m) := rfl
      rw [this, ih]
      simp [update_local_orderbook, applyDeltas_append]

lemma applyMsgs_asks (msgs : List DepthMsg) (ob : Orderbook) :
    (applyMsgs msgs ob).asks =
      applyDeltas ob.asks (msgs.map DepthMsg.a).flatten := by
  induction msgs generalizing ob with
  | nil => rfl
  | cons m msgs ih =>
      have : applyMsgs (m :: msgs) ob = applyMsgs msgs (update_local_orderbook ob m) := rfl
      rw [this, ih]
      simp [update_local_orderbook, applyDeltas_append]

/-! ### Positivity of stored sizes -/

lemma applyLevel_pos (s : Side) (p q : ℚ)
    (hs : ∀ kv ∈ s, 0 < kv.2) (hq : 0 ≤ q) :
    ∀ kv ∈ applyLevel s p q, 0 < kv.2 := by
  unfold applyLevel
  by_cases h0 : q = 0
  · rw [if_pos h0]
    intro kv hkv
    exact hs _ (List.mem_of_mem_filter hkv)
  · have hqpos : 0 < q := lt_of_le_of_ne hq (Ne.symm h0)
    rw [if_neg h0]
    by_cases hl : hasLevel s p
    · rw [if_pos hl]
      intro kv hkv
      obtain ⟨kv', hkv', heq⟩ := List.mem_map.1 hkv
      by_cases hk : kv'.1 = p
      · rw [if_pos hk] at heq
        rw [← heq]
        exact hqpos
      · rw [if_neg hk] at heq
        rw [← heq]
        exact hs _ hkv'
    · rw [if_neg hl]
      intro kv hkv
      rcases List.mem_append.1 hkv with h | h
      · exact hs _ h
      · have : kv = (p, q) := List.mem_singleton.1 h
        rw [this]
        exact hqpos

lemma applyDeltas_pos (ds : List (ℚ × ℚ)) (s : Side)
    (hs : ∀ kv ∈ s, 0 < kv.2) (hds : ∀ d ∈ ds, 0 ≤ d.2) :
    ∀ kv ∈ applyDeltas s ds, 0 < kv.2 := by
  induction ds generalizing s with
  | nil => exact hs
  | cons d ds ih =>
      have hstep : applyDeltas s (d :: ds) =
          applyDeltas (applyLevel s d.1 d.2) ds := rfl
      rw [hstep]
      exact ih _ (applyLevel_pos s d.1 d.2 hs (hds d (List.mem_cons_self d ds)))
        (fun d' hd' => hds d' (List.mem_cons_of_mem d hd'))

/-! ### Shape of the sorted top levels -/

lemma length_insertPair (x : ℚ × ℚ) (s : Side) :
    (insertPair x s).length = s.length + 1 := by
  induction s with
  | nil => rfl
  | cons y ys ih =>
      unfold insertPair
      by_cases h : pairLe x y
      · simp [h]
      · simp [h, ih]

lemma length_sortAsc (s : Side) : (sortAsc s).length = s.length := by
  induction s with
  | nil => rfl
  | cons x xs ih =>
      have : sortAsc (x :: xs) = insertPair x (sortAsc xs) := rfl
      rw [this, length_insertPair, ih, List.length_cons]

lemma sortAsc_nil_iff (s : Side) : sortAsc s = [] ↔ s = [] := by
  constructor
  · intro h
    have := length_sortAsc s
    rw [h] at this
    exact List.length_eq_zero.1 this.symm
  · intro h
    rw [h]
    rfl

lemma topBids_empty (depth : ℕ) (ob : Orderbook) (h : ob.bids = []) :
    topBids depth ob = [] := by
  simp [topBids, sortDesc, h, sortAsc]

lemma topAsks_empty (depth : ℕ) (ob : Orderbook) (h : ob.asks = []) :
    topAsks depth ob = [] := by
  simp [topAsks, h, sortAsc]

lemma topBids_ne_nil (depth : ℕ) (ob : Orderbook)
    (h : ob.bids ≠ []) (hd : 0 < depth) : topBids depth ob ≠ [] := by
  intro hc
  have hlen := congrArg List.length hc
  simp only [topBids, sortDesc, List.length_take, List.length_reverse,
    length_sortAsc, List.length_nil] at hlen
  rcases Nat.min_eq_zero_iff.1 hlen with h1 | h1
  · exact Nat.lt_irrefl 0 (h1 ▸ hd)
  · exact h (List.length_eq_zero.1 h1)

lemma topAsks_ne_nil (depth : ℕ) (ob : Orderbook)
    (h : ob.asks ≠ []) (hd : 0 < depth) : topAsks depth ob ≠ [] := by
  intro hc
  have hlen := congrArg List.length hc
  simp only [topAsks, List.length_take, length_sortAsc,
    List.length_nil] at hlen
  rcases Nat.min_eq_zero_iff.1 hlen with h1 | h1
  · exact Nat.lt_irrefl 0 (h1 ▸ hd)
  · exact h (List.length_eq_zero.1 h1)

/-! ### Snapshot field computations -/

lemma ifBothTruthy_none_left (b : Option ℚ) (f : ℚ → ℚ → ℚ) :
    ifBothTruthy none b f = none := rfl

lemma ifBothTruthy_none_right (a : Option ℚ) (f : ℚ → ℚ → ℚ) :
    ifBothTruthy a none f = none := by
  cases a <;> rfl

lemma process_fields_empty_bids (depth seq : ℕ) (ob : Orderbook)
    (h : ob.bids = []) :
    (process_orderbook_data depth seq ob).best_bid = none ∧
    (process_orderbook_data depth seq ob).best_bid_size = none ∧
    (process_orderbook_data depth seq ob).spread = none ∧
    (process_orderbook_data depth seq ob).spread_percent = none ∧
    (process_orderbook_data depth seq ob).mid_price = none ∧
    (process_orderbook_data depth seq ob).total_bid_volume = 0 := by
  have hb := topBids_empty depth ob h
  simp [process_orderbook_data, hb, ifBothTruthy_none_left]

lemma process_fields_empty_asks (depth seq : ℕ) (ob : Orderbook)
    (h : ob.asks = []) :
    (process_orderbook_data depth seq ob).best_ask = none ∧
    (process_orderbook_data depth seq ob).best_ask_size = none ∧
    (process_orderbook_data depth seq ob).spread = none ∧
    (process_orderbook_data depth seq ob).spread_percent = none ∧
    (process_orderbook_data depth seq ob).mid_price = none ∧
    (process_orderbook_data depth seq ob).total_ask_volume = 0 := by
  have ha := topAsks_empty depth ob h
  simp [process_orderbook_data, ha, ifBothTruthy_none_right]

lemma process_fields_cons (depth seq : ℕ) (ob : Orderbook)
    (bb bs ba bq : ℚ) (tlb tla : Side)
    (hb : topBids depth ob = (bb, bs) :: tlb)
    (ha : topAsks depth ob = (ba, bq) :: tla) :
    (process_orderbook_data depth seq ob).best_bid = some bb ∧
    (process_orderbook_data depth seq ob).best_ask = some ba ∧
    (process_orderbook_data depth seq ob).best_bid_size = some bs ∧
    (process_orderbook_data depth seq ob).best_ask_size = some bq ∧
    (bb ≠ 0 → ba ≠ 0 →
      (process_orderbook_data depth seq ob).spread = some (ba - bb) ∧
      (process_orderbook_data depth seq ob).mid_price = some ((bb + ba) / 2) ∧
      (ba - bb ≠ 0 →
        (process_orderbook_data depth seq ob).spread_percent =
          some ((ba - bb) / ba * 100)) ∧
      (ba - bb = 0 →
        (process_orderbook_data depth seq ob).spread_percent = none)) := by
  refine ⟨?_, ?_, ?_, ?_, ?_⟩
  · simp [process_orderbook_data, hb]
  · simp [process_orderbook_data, ha]
  · simp [process_orderbook_data, hb]
  · simp [process_orderbook_data, ha]
  · intro hbb hba
    have hsp : (process_orderbook_data depth seq ob).spread = some (ba - bb) := by
      simp [process_orderbook_data, hb, ha, ifBothTruthy, hbb, hba]
    refine ⟨hsp, ?_, ?_, ?_⟩
    · simp [process_orderbook_data, hb, ha, ifBothTruthy, hbb, hba]
    · intro hne
      simp [process_orderbook_data, hb, ha, ifBothTruthy, hbb, hba, hne]
    · intro hzero
      simp [process_orderbook_data, hb, ha, ifBothTruthy, hbb, hba, hzero]

/-! ### Backoff trace lemmas -/

lemma connectRun_false (d : ℕ) (l : List Bool) :
    connectRun d (false :: l) = d :: connectRun (min (d * 2) 60) l := rfl

lemma connectRun_true (d : ℕ) (l : List Bool) :
    connectRun d (true :: l) = 1 :: connectRun 2 l := rfl

lemma allCapped_connectRun (l : List Bool) :
    ∀ d, d ≤ 60 → allCapped (connectRun d l) = true := by
  induction l with
  | nil =>
      intro d _
      rfl
  | cons ok rest ih =>
      intro d hd
      have hstep : connectRun d (ok :: rest) =
          (if ok then 1 else d) ::
            connectRun (min ((if ok then 1 else d) * 2) 60) rest := rfl
      rw [hstep]
      have hd' : (if ok then 1 else d) ≤ 60 := by
        cases ok
        · simpa using hd
        · simp
      have hrest := ih _ (Nat.min_le_right ((if ok then 1 else d) * 2) 60)
      unfold allCapped at hrest ⊢
      rw [List.all_cons, decide_eq_true hd', hrest]
      rfl

/-! ### Sequence-id tracking lemmas -/

lemma processMsgs_fst_seq (depth : ℕ) (msgs : List DepthMsg)
    (st : AdapterState) :
    (processMsgs depth st msgs).1.sequence_id =
      msgs.foldl (fun acc m => m.u.getD acc) st.sequence_id := by
  induction msgs generalizing st with
  | nil => rfl
  | cons m ms ih =>
      have hstep : (processMsgs depth st (m :: ms)).1 =
          (processMsgs depth (handle_depth_update depth st m).1 ms).1 := rfl
      rw [hstep, ih, List.foldl_cons]
      rfl

lemma foldl_getD_eq (msgs : List DepthMsg) : ∀ a : ℕ,
    msgs.foldl (fun acc m => m.u.getD acc) a =
      (msgs.reverse.findSome? DepthMsg.u).getD a := by
  induction msgs with
  | nil =>
      intro a
      rfl
  | cons m ms ih =>
      intro a
      rw [List.foldl_cons, ih, List.reverse_cons, List.findSome?_append]
      rcases h : ms.reverse.findSome? DepthMsg.u with _ | v
      · cases hu : m.u <;> simp [List.findSome?, hu, Option.or]
      · simp [Option.or]

lemma processMsgs_append_one (depth : ℕ) (st : AdapterState)
    (msgs : List DepthMsg) (m : DepthMsg) :
    (processMsgs depth st (msgs ++ [m])).2 =
      (processMsgs depth st msgs).2 ++
        [(handle_depth_update depth (processMsgs depth st msgs).1 m).2] := by
  induction msgs generalizing st with
  | nil => rfl
  | cons m' ms ih =>
      have h1 : (processMsgs depth st ((m' :: ms) ++ [m])).2 =
          (handle_depth_update depth st m').2 ::
            (processMsgs depth (handle_depth_update depth st m').1
              (ms ++ [m])).2 := rfl
      have h2 : (processMsgs depth st (m' :: ms)).2 =
          (handle_depth_update depth st m').2 ::
            (processMsgs depth (handle_depth_update depth st m').1 ms).2 := rfl
      have h3 : (processMsgs depth st (m' :: ms)).1 =
          (processMsgs depth (handle_depth_update depth st m').1 ms).1 := rfl
      rw [h1, h2, h3, ih]
      rfl

/-! ### Claim C1 -/

/-- Claim C1, as stated, is false: with empty bids but non-empty asks
(a reachable book), the ask-side derived fields are still present —
`best_ask` is the ask price and `total_ask_volume` its size, not `None`. -/
theorem best_ask_present_with_empty_bids :
    (applyMsgs [⟨[], [(101, 1)], none⟩] emptyOrderbook).bids = [] ∧
    (process_orderbook_data 10 0
      (applyMsgs [⟨[], [(101, 1)], none⟩] emptyOrderbook)).best_ask = some 101 ∧
    (process_orderbook_data 10 0
      (applyMsgs [⟨[], [(101, 1)], none⟩] emptyOrderbook)).total_ask_volume = 1 := by
  with_unfolding_all decide

/-- Claim C1 (amended): for every reachable book with an empty side, the
cross-side fields `spread`, `spread_percent` and `mid_price` are `None`;
the empty side's own `best` price and size are `None` and its total volume
is 0 (a number, not `None`); the non-empty side's fields stay present. -/
theorem empty_side_derived_fields (msgs : List DepthMsg) (depth seq : ℕ)
    (h : (applyMsgs msgs emptyOrderbook).bids = [] ∨
         (applyMsgs msgs emptyOrderbook).asks = []) :
    (process_orderbook_data depth seq (applyMsgs msgs emptyOrderbook)).spread = none ∧
    (process_orderbook_data depth seq (applyMsgs msgs emptyOrderbook)).spread_percent = none ∧
    (process_orderbook_data depth seq (applyMsgs msgs emptyOrderbook)).mid_price = none ∧
    ((applyMsgs msgs emptyOrderbook).bids = [] →
      (process_orderbook_data depth seq (applyMsgs msgs emptyOrderbook)).best_bid = none ∧
      (process_orderbook_data depth seq (applyMsgs msgs emptyOrderbook)).best_bid_size = none ∧
      (process_orderbook_data depth seq (applyMsgs msgs emptyOrderbook)).total_bid_volume = 0) ∧
    ((applyMsgs msgs emptyOrderbook).asks = [] →
      (process_orderbook_data depth seq (applyMsgs msgs emptyOrderbook)).best_ask = none ∧
      (process_orderbook_data depth seq (applyMsgs msgs emptyOrderbook)).best_ask_size = none ∧
      (process_orderbook_data depth seq (applyMsgs msgs emptyOrderbook)).total_ask_volume = 0) := by
  refine ⟨?_, ?_, ?_, ?_, ?_⟩
  · rcases h with h | h
    · exact (process_fields_empty_bids depth seq _ h).2.2.1
    · exact (process_fields_empty_asks depth seq _ h).2.2.1
  · rcases h with h | h
    · exact (process_fields_empty_bids depth seq _ h).2.2.2.1
    · exact (process_fields_empty_asks depth seq _ h).2.2.2.1
  · rcases h with h | h
    · exact (process_fields_empty_bids depth seq _ h).2.2.2.2.1
    · exact (process_fields_empty_asks depth seq _ h).2.2.2.2.1
  · intro hb
    exact ⟨(process_fields_empty_bids depth seq _ hb).1,
      (process_fields_empty_bids depth seq _ hb).2.1,
      (process_fields_empty_bids depth seq _ hb).2.2.2.2.2⟩
  · intro ha
    exact ⟨(process_fields_empty_asks depth seq _ ha).1,
      (process_fields_empty_asks depth seq _ ha).2.1,
      (process_fields_empty_asks depth seq _ ha).2.2.2.2.2⟩

/-- A concrete instance of `empty_side_derived_fields`: one ask-only
message. -/
theorem empty_side_derived_fields_witness :
    ((applyMsgs [⟨[], [(101, 1)], none⟩] emptyOrderbook).bids = [] ∨
     (applyMsgs [⟨[], [(101, 1)], none⟩] emptyOrderbook).asks = []) ∧
    ((process_orderbook_data 10 0 (applyMsgs [⟨[], [(101, 1)], none⟩] emptyOrderbook)).spread = none ∧
     (process_orderbook_data 10 0 (applyMsgs [⟨[], [(101, 1)], none⟩] emptyOrderbook)).spread_percent = none ∧
     (process_orderbook_data 10 0 (applyMsgs [⟨[], [(101, 1)], none⟩] emptyOrderbook)).mid_price = none ∧
     ((applyMsgs [⟨[], [(101, 1)], none⟩] emptyOrderbook).bids = [] →
       (process_orderbook_data 10 0 (applyMsgs [⟨[], [(101, 1)], none⟩] emptyOrderbook)).best_bid = none ∧
       (process_orderbook_data 10 0 (applyMsgs [⟨[], [(101, 1)], none⟩] emptyOrderbook)).best_bid_size = none ∧
       (process_orderbook_data 10 0 (applyMsgs [⟨[], [(101, 1)], none⟩] emptyOrderbook)).total_bid_volume = 0) ∧
     ((applyMsgs [⟨[], [(101, 1)], none⟩] emptyOrderbook).asks = [] →
       (process_orderbook_data 10 0 (applyMsgs [⟨[], [(101, 1)], none⟩] emptyOrderbook)).best_ask = none ∧
       (process_orderbook_data 10 0 (applyMsgs [⟨[], [(101, 1)], none⟩] emptyOrderbook)).best_ask_size = none ∧
       (process_orderbook_data 10 0 (applyMsgs [⟨[], [(101, 1)], none⟩] emptyOrderbook)).total_ask_volume = 0)) :=
  ⟨Or.inl (by with_unfolding_all decide),
   empty_side_derived_fields [⟨[], [(101, 1)], none⟩] 10 0
     (Or.inl (by with_unfolding_all decide))⟩

/-! ### Claim C2 -/

/-- Claim C2, as stated, is false: in a locked book (best bid = best ask,
both sides non-empty) the spread is exactly 0, which Python treats as
falsy, so `spread_percent` is `None` rather than the number
`spread / best_ask * 100 = 0`. -/
theorem spread_percent_none_when_spread_zero :
    (applyMsgs [⟨[(100, 1)], [(100, 1)], none⟩] emptyOrderbook).bids ≠ [] ∧
    (applyMsgs [⟨[(100, 1)], [(100, 1)], none⟩] emptyOrderbook).asks ≠ [] ∧
    (process_orderbook_data 10 0
      (applyMsgs [⟨[(100, 1)], [(100, 1)], none⟩] emptyOrderbook)).best_bid = some 100 ∧
    (process_orderbook_data 10 0
      (applyMsgs [⟨[(100, 1)], [(100, 1)], none⟩] emptyOrderbook)).best_ask = some 100 ∧
    (process_orderbook_data 10 0
      (applyMsgs [⟨[(100, 1)], [(100, 1)], none⟩] emptyOrderbook)).spread = some 0 ∧
    (process_orderbook_data 10 0
      (applyMsgs [⟨[(100, 1)], [(100, 1)], none⟩] emptyOrderbook)).spread_percent = none := by
  with_unfolding_all decide

/-- Claim C2 (amended): for every reachable book with both sides
non-empty (and a positive depth), `best_bid` and `best_ask` are present;
when both prices are nonzero (nonzero because the code guards with Python
truthiness), `spread = best_ask - best_bid` and
`mid_price = (best_bid + best_ask) / 2`; `spread_percent` equals
`spread / best_ask * 100` whenever the spread is nonzero, and is `None`
when the spread is exactly 0. -/
theorem derived_metric_formulas (msgs : List DepthMsg) (depth seq : ℕ)
    (hd : 0 < depth)
    (hb : (applyMsgs msgs emptyOrderbook).bids ≠ [])
    (ha : (applyMsgs msgs emptyOrderbook).asks ≠ []) :
    ∃ bb ba : ℚ,
      (process_orderbook_data depth seq (applyMsgs msgs emptyOrderbook)).best_bid = some bb ∧
      (process_orderbook_data depth seq (applyMsgs msgs emptyOrderbook)).best_ask = some ba ∧
      (bb ≠ 0 → ba ≠ 0 →
        (process_orderbook_data depth seq (applyMsgs msgs emptyOrderbook)).spread = some (ba - bb) ∧
        (process_orderbook_data depth seq (applyMsgs msgs emptyOrderbook)).mid_price = some ((bb + ba) / 2) ∧
        (ba - bb ≠ 0 →
          (process_orderbook_data depth seq (applyMsgs msgs emptyOrderbook)).spread_percent =
            some ((ba - bb) / ba * 100)) ∧
        (ba - bb = 0 →
          (process_orderbook_data depth seq (applyMsgs msgs emptyOrderbook)).spread_percent = none)) := by
  obtain ⟨xb, tlb, hxb⟩ :=
    List.exists_cons_of_ne_nil (topBids_ne_nil depth _ hb hd)
  obtain ⟨xa, tla, hxa⟩ :=
    List.exists_cons_of_ne_nil (topAsks_ne_nil depth _ ha hd)
  obtain ⟨bb, bs⟩ := xb
  obtain ⟨ba, bq⟩ := xa
  have hf := process_fields_cons depth seq _ bb bs ba bq tlb tla hxb hxa
  exact ⟨bb, ba, hf.1, hf.2.1, hf.2.2.2.2⟩

/-- A concrete instance of `derived_metric_formulas`: bid 100, ask 101. -/
theorem derived_metric_formulas_witness :
    (0 < 10 ∧
     (applyMsgs [⟨[(100, 1)], [(101, 1)], none⟩] emptyOrderbook).bids ≠ [] ∧
     (applyMsgs [⟨[(100, 1)], [(101, 1)], none⟩] emptyOrderbook).asks ≠ []) ∧
    (∃ bb ba : ℚ,
      (process_orderbook_data 10 0 (applyMsgs [⟨[(100, 1)], [(101, 1)], none⟩] emptyOrderbook)).best_bid = some bb ∧
      (process_orderbook_data 10 0 (applyMsgs [⟨[(100, 1)], [(101, 1)], none⟩] emptyOrderbook)).best_ask = some ba ∧
      (bb ≠ 0 → ba ≠ 0 →
        (process_orderbook_data 10 0 (applyMsgs [⟨[(100, 1)], [(101, 1)], none⟩] emptyOrderbook)).spread = some (ba - bb) ∧
        (process_orderbook_data 10 0 (applyMsgs [⟨[(100, 1)], [(101, 1)], none⟩] emptyOrderbook)).mid_price = some ((bb + ba) / 2) ∧
        (ba - bb ≠ 0 →
          (process_orderbook_data 10 0 (applyMsgs [⟨[(100, 1)], [(101, 1)], none⟩] emptyOrderbook)).spread_percent =
            some ((ba - bb) / ba * 100)) ∧
        (ba - bb = 0 →
          (process_orderbook_data 10 0 (applyMsgs [⟨[(100, 1)], [(101, 1)], none⟩] emptyOrderbook)).spread_percent = none))) :=
  ⟨⟨by decide, by with_unfolding_all decide, by with_unfolding_all decide⟩,
   derived_metric_formulas [⟨[(100, 1)], [(101, 1)], none⟩] 10 0
     (by decide) (by with_unfolding_all decide) (by with_unfolding_all decide)⟩

/-! ### Claim C3 -/

/-- Claim C3: for every sequence of deltas applied via
`update_local_orderbook`, the stored size at a price is decided by the
last delta for that price on that side (last-write-wins): absent if that
delta's size is 0, exactly that size otherwise, and the prior value where
no delta mentions the price. -/
theorem delta_application_last_write_wins (msgs : List DepthMsg)
    (ob : Orderbook) (p : ℚ) :
    lookupLevel (applyMsgs msgs ob).bids p =
      (match lastDeltaFor p (msgs.map DepthMsg.b).flatten with
       | some q => if q = 0 then none else some q
       | none => lookupLevel ob.bids p) ∧
    lookupLevel (applyMsgs msgs ob).asks p =
      (match lastDeltaFor p (msgs.map DepthMsg.a).flatten with
       | some q => if q = 0 then none else some q
       | none => lookupLevel ob.asks p) := by
  constructor
  · rw [applyMsgs_bids]
    exact lookupLevel_applyDeltas _ _ _
  · rw [applyMsgs_asks]
    exact lookupLevel_applyDeltas _ _ _

/-! ### Claim C4 -/

/-- A buffer state sitting exactly on the time boundary: one buffered
record, batch size 1000, flush interval 5, last flush at time 0. -/
def boundaryFlushState : FlushState ℕ :=
  { buffer := [0], fileContents := none, last_flush_time := 0,
    buffer_size := 1000, flush_interval := 5 }

set_option maxRecDepth 4000 in
/-- Claim C4, as stated, is false at the time boundary: at elapsed time
exactly equal to the flush interval (5 = 5, so elapsed ≥ interval holds)
the code does not flush — the comparison in `check_flush_buffer` is
strict (`>`), not `≥` — although `flush_buffer` would have changed the
state. -/
theorem time_trigger_boundary_no_flush :
    (5 : ℚ) - boundaryFlushState.last_flush_time ≥ boundaryFlushState.flush_interval ∧
    boundaryFlushState.buffer ≠ [] ∧
    check_flush_buffer boundaryFlushState 5 false = boundaryFlushState ∧
    flush_buffer boundaryFlushState 5 false ≠ boundaryFlushState := by
  with_unfolding_all decide

/-- Claim C4 (amended): `check_flush_buffer` invokes `flush_buffer`
exactly when the buffer length is at least the configured batch size OR
the elapsed time since the last flush is strictly greater than the
configured flush interval (the time trigger is strict, not `≥`);
`flush_buffer` invoked with an empty buffer returns immediately, leaving
the whole state — including the file — untouched. -/
theorem flush_trigger_condition {α : Type} (st : FlushState α) (now : ℚ)
    (wf : Bool) :
    ((st.buffer_size ≤ st.buffer.length ∨
        st.flush_interval < now - st.last_flush_time) →
      check_flush_buffer st now wf = flush_buffer st now wf) ∧
    (¬ (st.buffer_size ≤ st.buffer.length ∨
        st.flush_interval < now - st.last_flush_time) →
      check_flush_buffer st now wf = st) ∧
    (st.buffer = [] → flush_buffer st now wf = st) := by
  refine ⟨?_, ?_, ?_⟩
  · intro h
    unfold check_flush_buffer
    rw [if_pos h]
  · intro h
    unfold check_flush_buffer
    rw [if_neg h]
  · intro h
    unfold flush_buffer
    simp [h]

/-- A buffer that has reached the batch size threshold. -/
def fullFlushState : FlushState ℕ :=
  { buffer := [7], fileContents := none, last_flush_time := 0,
    buffer_size := 1, flush_interval := 5 }

/-- An empty buffer below both thresholds. -/
def emptyFlushState : FlushState ℕ :=
  { buffer := [], fileContents := none, last_flush_time := 0,
    buffer_size := 1000, flush_interval := 5 }

/-- Concrete instances of `flush_trigger_condition`: the count trigger
fires on a full buffer; neither trigger fires on an empty recent buffer;
flushing an empty buffer is a no-op. -/
theorem flush_trigger_condition_witness :
    check_flush_buffer fullFlushState 10 false = flush_buffer fullFlushState 10 false ∧
    check_flush_buffer emptyFlushState 1 false = emptyFlushState ∧
    flush_buffer emptyFlushState 1 false = emptyFlushState :=
  ⟨(flush_trigger_condition fullFlushState 10 false).1
      (Or.inl (by decide)),
   (flush_trigger_condition emptyFlushState 1 false).2.1
      (by with_unfolding_all decide),
   (flush_trigger_condition emptyFlushState 1 false).2.2 rfl⟩

/-! ### Claim C5 -/

/-- Claim C5: a flush with a non-empty buffer and an existing file for the
current key appends the batch after the prior contents and rewrites the
combined result; on success the buffer is cleared and the flush clock
reset to `now`; if the write raises, the buffer and the flush clock are
left unchanged for retry on the next trigger. -/
theorem flush_buffer_append_and_retry {α : Type} (st : FlushState α)
    (now : ℚ) (prior : List α)
    (hne : st.buffer ≠ []) (hfile : st.fileContents = some prior) :
    (flush_buffer st now false).fileContents = some (prior ++ st.buffer) ∧
    (flush_buffer st now false).buffer = [] ∧
    (flush_buffer st now false).last_flush_time = now ∧
    (flush_buffer st now true).buffer = st.buffer ∧
    (flush_buffer st now true).last_flush_time = st.last_flush_time := by
  have hE : st.buffer.isEmpty = false := by
    rcases hb : st.buffer with _ | ⟨x, xs⟩
    · exact absurd hb hne
    · rfl
  refine ⟨?_, ?_, ?_, ?_, ?_⟩ <;> simp [flush_buffer, hE, hfile]

/-- A buffer of two records over a file already holding two records. -/
def retryFlushState : FlushState ℕ :=
  { buffer := [3, 4], fileContents := some [1, 2], last_flush_time := 0,
    buffer_size := 1000, flush_interval := 5 }

/-- A concrete instance of `flush_buffer_append_and_retry`. -/
theorem flush_buffer_append_and_retry_witness :
    (retryFlushState.buffer ≠ [] ∧ retryFlushState.fileContents = some [1, 2]) ∧
    ((flush_buffer retryFlushState 9 false).fileContents = some ([1, 2] ++ retryFlushState.buffer) ∧
     (flush_buffer retryFlushState 9 false).buffer = [] ∧
     (flush_buffer retryFlushState 9 false).last_flush_time = 9 ∧
     (flush_buffer retryFlushState 9 true).buffer = retryFlushState.buffer ∧
     (flush_buffer retryFlushState 9 true).last_flush_time = retryFlushState.last_flush_time) :=
  ⟨⟨by decide, rfl⟩,
   flush_buffer_append_and_retry retryFlushState 9 [1, 2] (by decide) rfl⟩

/-! ### Claim C6 -/

/-- Claim C6: the reconnect delay starts at 1; each failed iteration
sleeps the current delay and then doubles it, capped at 60, so three
consecutive failures sleep 1, 2 and 4; every sleep is capped at 60; and a
successful connection resets the delay to 1, erasing any accumulated
backoff (the trace after a success is independent of the prior delay). -/
theorem connect_backoff_policy :
    connect [false, false, false] = [1, 2, 4] ∧
    (∀ (d : ℕ) (l : List Bool),
      connectRun d (false :: l) = d :: connectRun (min (d * 2) 60) l) ∧
    (∀ (d : ℕ) (l : List Bool), d ≤ 60 →
      allCapped (connectRun d l) = true) ∧
    (∀ (d : ℕ) (l : List Bool),
      connectRun d (true :: l) = connect (true :: l)) := by
  refine ⟨rfl, ?_, ?_, ?_⟩
  · intro d l
    rfl
  · intro d l h
    exact allCapped_connectRun l d h
  · intro d l
    rfl

/-- A concrete instance of `connect_backoff_policy`: starting at the cap
itself, no sleep ever exceeds 60. -/
theorem connect_backoff_policy_witness :
    allCapped (connectRun 60 [false, false, false]) = true :=
  connect_backoff_policy.2.2.1 60 [false, false, false] (by decide)

/-! ### Claim C7 -/

/-- Claim C7: stopping a running supervisor whose collector records into a
non-empty buffer performs exactly one flush and one final report; the
second stop performs none of either and leaves the state unchanged
(`is_running` guards the whole body). -/
theorem stop_idempotent_single_flush {α : Type} (st : RecorderState α)
    (now now' : ℚ) (wf wf' : Bool)
    (hrun : st.is_running = true)
    (hrec : st.collector.enable_recording = true)
    (hbuf : st.collector.flushState.buffer ≠ []) :
    (recorder_stop st now wf).2.1 = 1 ∧
    (recorder_stop st now wf).2.2 = 1 ∧
    (recorder_stop (recorder_stop st now wf).1 now' wf').2.1 = 0 ∧
    (recorder_stop (recorder_stop st now wf).1 now' wf').2.2 = 0 ∧
    (recorder_stop (recorder_stop st now wf).1 now' wf').1 =
      (recorder_stop st now wf).1 := by
  have hne : ¬ st.collector.flushState.buffer.isEmpty = true := by
    rcases hb : st.collector.flushState.buffer with _ | ⟨x, xs⟩
    · exact absurd hb hbuf
    · simp [hb]
  simp [recorder_stop, collector_stop, hrun, hrec, hne]

/-- A running recorder over one collector with a single buffered record. -/
def runningRecorder : RecorderState ℕ :=
  { is_running := true,
    collector :=
      { enable_recording := true,
        flushState :=
          { buffer := [5], fileContents := none, last_flush_time := 0,
            buffer_size := 1000, flush_interval := 5 } } }

/-- A concrete instance of `stop_idempotent_single_flush`. -/
theorem stop_idempotent_single_flush_witness :
    (recorder_stop runningRecorder 1 false).2.1 = 1 ∧
    (recorder_stop runningRecorder 1 false).2.2 = 1 ∧
    (recorder_stop (recorder_stop runningRecorder 1 false).1 2 false).2.1 = 0 ∧
    (recorder_stop (recorder_stop runningRecorder 1 false).1 2 false).2.2 = 0 ∧
    (recorder_stop (recorder_stop runningRecorder 1 false).1 2 false).1 =
      (recorder_stop runningRecorder 1 false).1 :=
  stop_idempotent_single_flush runningRecorder 1 2 false false
    rfl rfl (by decide)

/-! ### Claim C8 -/

/-- Claim C8: starting from the empty book, applying any sequence of
deltas whose sizes are non-negative (malformed values are rejected by the
caller) leaves every stored size strictly positive: a size-0 delta
removes its key instead of storing a zero. -/
theorem reachable_sizes_positive (msgs : List DepthMsg)
    (h : ∀ m ∈ msgs, (∀ d ∈ m.b, 0 ≤ d.2) ∧ (∀ d ∈ m.a, 0 ≤ d.2)) :
    (∀ kv ∈ (applyMsgs msgs emptyOrderbook).bids, 0 < kv.2) ∧
    (∀ kv ∈ (applyMsgs msgs emptyOrderbook).asks, 0 < kv.2) := by
  constructor
  · rw [applyMsgs_bids]
    apply applyDeltas_pos
    · intro kv hkv
      simp [emptyOrderbook] at hkv
    · intro d hd
      obtain ⟨l, hl, hdl⟩ := List.mem_flatten.1 hd
      obtain ⟨m, hm, rfl⟩ := List.mem_map.1 hl
      exact (h m hm).1 d hdl
  · rw [applyMsgs_asks]
    apply applyDeltas_pos
    · intro kv hkv
      simp [emptyOrderbook] at hkv
    · intro d hd
      obtain ⟨l, hl, hdl⟩ := List.mem_flatten.1 hd
      obtain ⟨m, hm, rfl⟩ := List.mem_map.1 hl
      exact (h m hm).2 d hdl

/-- A concrete instance of `reachable_sizes_positive`: one message with a
zero-size removal, an overwrite and a fractional size. -/
theorem reachable_sizes_positive_witness :
    (∀ m ∈ [(⟨[(100, 1), (100, 0)], [(101, 1/2)], none⟩ : DepthMsg)],
      (∀ d ∈ m.b, 0 ≤ d.2) ∧ (∀ d ∈ m.a, 0 ≤ d.2)) ∧
    ((∀ kv ∈ (applyMsgs [(⟨[(100, 1), (100, 0)], [(101, 1/2)], none⟩ : DepthMsg)] emptyOrderbook).bids, 0 < kv.2) ∧
     (∀ kv ∈ (applyMsgs [(⟨[(100, 1), (100, 0)], [(101, 1/2)], none⟩ : DepthMsg)] emptyOrderbook).asks, 0 < kv.2)) :=
  ⟨by with_unfolding_all decide,
   reachable_sizes_positive [⟨[(100, 1), (100, 0)], [(101, 1/2)], none⟩]
     (by with_unfolding_all decide)⟩

/-! ### Claim C9 -/

/-- Claim C9: feeding the adapter, from an empty book, the 3-message
stream (1) bid 100@1 / ask 101@1, (2) bid 100@0 / bid 99@2, (3) ask
101@0.5 yields a final snapshot whose top-5 bids are exactly [(99, 2)],
top-5 asks exactly [(101, 0.5)], with `mid_price = 100` and `spread = 2`. -/
theorem end_to_end_three_message_scenario :
    (processMsgs 5 initState
        [⟨[(100, 1)], [(101, 1)], none⟩,
         ⟨[(100, 0), (99, 2)], [], none⟩,
         ⟨[], [(101, 1/2)], none⟩]).2.getLast? =
      some (process_orderbook_data 5 0
        (applyMsgs
          [⟨[(100, 1)], [(101, 1)], none⟩,
           ⟨[(100, 0), (99, 2)], [], none⟩,
           ⟨[], [(101, 1/2)], none⟩] emptyOrderbook)) ∧
    (process_orderbook_data 5 0
      (applyMsgs
        [⟨[(100, 1)], [(101, 1)], none⟩,
         ⟨[(100, 0), (99, 2)], [], none⟩,
         ⟨[], [(101, 1/2)], none⟩] emptyOrderbook)).bids = [(99, 2)] ∧
    (process_orderbook_data 5 0
      (applyMsgs
        [⟨[(100, 1)], [(101, 1)], none⟩,
         ⟨[(100, 0), (99, 2)], [], none⟩,
         ⟨[], [(101, 1/2)], none⟩] emptyOrderbook)).asks = [(101, 1/2)] ∧
    (process_orderbook_data 5 0
      (applyMsgs
        [⟨[(100, 1)], [(101, 1)], none⟩,
         ⟨[(100, 0), (99, 2)], [], none⟩,
         ⟨[], [(101, 1/2)], none⟩] emptyOrderbook)).mid_price = some 100 ∧
    (process_orderbook_data 5 0
      (applyMsgs
        [⟨[(100, 1)], [(101, 1)], none⟩,
         ⟨[(100, 0), (99, 2)], [], none⟩,
         ⟨[], [(101, 1/2)], none⟩] emptyOrderbook)).spread = some 2 := by
  with_unfolding_all decide

lemma process_sequence_id (depth seq : ℕ) (ob : Orderbook) :
    (process_orderbook_data depth seq ob).sequence_id = seq := rfl

/-! ### Claim C10 -/

/-- Claim C10: when a processed message has no `u` field,
`handle_depth_update` leaves `sequence_id` unchanged and the emitted
snapshot carries the previous identifier — over a run started from the
initial state (whose identifier is 0), the identifier of the most recent
prior message that had one, or 0; when `u` is present it is stored
unconditionally, with no comparison against the prior identifier. -/
theorem sequence_id_tracking (depth : ℕ) (st : AdapterState) (m : DepthMsg)
    (msgs : List DepthMsg) :
    (m.u = none →
      (handle_depth_update depth st m).1.sequence_id = st.sequence_id ∧
      (handle_depth_update depth st m).2.sequence_id = st.sequence_id) ∧
    (∀ v, m.u = some v →
      (handle_depth_update depth st m).1.sequence_id = v ∧
      (handle_depth_update depth st m).2.sequence_id = v) ∧
    initState.sequence_id = 0 ∧
    (m.u = none →
      ((processMsgs depth initState (msgs ++ [m])).2.map
          Snapshot.sequence_id).getLast? = some (lastSeq msgs)) := by
  refine ⟨?_, ?_, rfl, ?_⟩
  · intro h
    exact ⟨by simp [handle_depth_update, h], by simp [handle_depth_update, h, process_sequence_id]⟩
  · intro v h
    exact ⟨by simp [handle_depth_update, h], by simp [handle_depth_update, h, process_sequence_id]⟩
  · intro h
    rw [processMsgs_append_one, List.map_append]
    simp only [List.map_cons, List.map_nil]
    rw [List.getLast?_concat]
    have h2 : (handle_depth_update depth
        (processMsgs depth initState msgs).1 m).2.sequence_id =
          m.u.getD (processMsgs depth initState msgs).1.sequence_id := rfl
    rw [h2, h]
    rw [Option.getD_none, processMsgs_fst_seq, foldl_getD_eq]
    rfl

/-- Concrete instances of `sequence_id_tracking`: a message without `u`
keeps the previous identifier, one with `u = 42` stores it, and after
`[u = 42]` followed by a `u`-less message the emitted snapshot still
carries 42. -/
theorem sequence_id_tracking_witness :
    ((handle_depth_update 5 initState (⟨[], [], none⟩ : DepthMsg)).1.sequence_id = initState.sequence_id ∧
     (handle_depth_update 5 initState (⟨[], [], none⟩ : DepthMsg)).2.sequence_id = initState.sequence_id) ∧
    ((handle_depth_update 5 initState (⟨[], [], some 42⟩ : DepthMsg)).1.sequence_id = 42 ∧
     (handle_depth_update 5 initState (⟨[], [], some 42⟩ : DepthMsg)).2.sequence_id = 42) ∧
    ((processMsgs 5 initState ([⟨[], [], some 42⟩] ++ [(⟨[], [], none⟩ : DepthMsg)])).2.map
        Snapshot.sequence_id).getLast? = some (lastSeq [⟨[], [], some 42⟩]) :=
  ⟨(sequence_id_tracking 5 initState ⟨[], [], none⟩ []).1 rfl,
   (sequence_id_tracking 5 initState ⟨[], [], some 42⟩ []).2.1 42 rfl,
   (sequence_id_tracking 5 initState ⟨[], [], none⟩ [⟨[], [], some 42⟩]).2.2.2 rfl⟩

end BinanceSpot
